import Mathlib

/-!
Verification of the niceplots plotting-utility module (`niceplots/utils.py`).

The module's functions mutate matplotlib axes objects and write figure
files.  We embed the observable effect of each function as a pure Lean
function over explicit state records: spines and tick state for
`adjust_spines`, lists of placed labels for the two legend placers, the
per-panel layout data for `horiz_bar`, and the per-panel y-limit / y-tick /
plot data for `stacked_plots`.  Real arithmetic is modelled with `ℚ`.
-/

namespace Niceplots

/-- State of one matplotlib spine: its color (`"none"` means hidden), its
position (`spine.set_position(('outward', 12))` records `some ("outward", 12)`),
and its smart-bounds flag. -/
structure Spine where
  color : String
  position : Option (String × Int)
  smartBounds : Bool
deriving DecidableEq, Repr

/-- State of one axis (xaxis or yaxis): the ticks position string and the
explicitly-set tick list (`none` = automatic ticks). -/
structure AxisState where
  ticksPosition : String
  ticks : Option (List ℚ)
deriving DecidableEq, Repr

/-- The part of a matplotlib axes' state that `adjust_spines` reads or
mutates: the four spines and the two axes' tick state. -/
structure AxesState where
  left : Spine
  right : Spine
  top : Spine
  bottom : Spine
  xaxis : AxisState
  yaxis : AxisState
deriving DecidableEq, Repr

/-- Body of the spine loop in `adjust_spines`: a spine whose location is in
the keep-set gets `set_position(('outward', 12))` when `outward` is set and
`set_smart_bounds(smart_bounds)`; any other spine gets `set_color('none')`. -/
def adjustSpine (keep : List String) (smart_bounds outward : Bool)
    (loc : String) (sp : Spine) : Spine :=
  if loc ∈ keep then
    { sp with
      position := if outward then some ("outward", 12) else sp.position
      smartBounds := smart_bounds }
  else
    { sp with color := "none" }

/-- Embedding of `adjust_spines(ax, spines, smart_bounds, outward)`: loop
over the four spines, then set the tick positions, removing ticks on a side
whose spine is not kept (`set_ticks([])`). -/
def adjust_spines (keep : List String) (smart_bounds outward : Bool)
    (ax : AxesState) : AxesState :=
  let ax1 : AxesState :=
    { ax with
      left := adjustSpine keep smart_bounds outward "left" ax.left
      right := adjustSpine keep smart_bounds outward "right" ax.right
      top := adjustSpine keep smart_bounds outward "top" ax.top
      bottom := adjustSpine keep smart_bounds outward "bottom" ax.bottom }
  let ax2 : AxesState :=
    if "left" ∈ keep then
      { ax1 with yaxis := { ax1.yaxis with ticksPosition := "left" } }
    else
      { ax1 with yaxis := { ax1.yaxis with ticks := some [] } }
  if "bottom" ∈ keep then
    { ax2 with xaxis := { ax2.xaxis with ticksPosition := "bottom" } }
  else
    { ax2 with xaxis := { ax2.xaxis with ticks := some [] } }

/-- C5: for a keep-set that is a subset of \x7bleft, bottom\x7d and an axes whose
left and bottom spines start visible, `adjust_spines` leaves exactly the
kept spines visible (top and right are always hidden), removes y-ticks when
"left" is not kept, and removes x-ticks when "bottom" is not kept. -/
theorem adjust_spines_keep_spec (keep : List String) (sb ow : Bool) (ax : AxesState)
    (hsub : ∀ l ∈ keep, l = "left" ∨ l = "bottom")
    (hl : ax.left.color ≠ "none") (hb : ax.bottom.color ≠ "none") :
    ((adjust_spines keep sb ow ax).left.color ≠ "none" ↔ "left" ∈ keep) ∧
    ((adjust_spines keep sb ow ax).bottom.color ≠ "none" ↔ "bottom" ∈ keep) ∧
    (adjust_spines keep sb ow ax).top.color = "none" ∧
    (adjust_spines keep sb ow ax).right.color = "none" ∧
    ("left" ∉ keep → (adjust_spines keep sb ow ax).yaxis.ticks = some []) ∧
    ("bottom" ∉ keep → (adjust_spines keep sb ow ax).xaxis.ticks = some []) := by
  have hT : "top" ∉ keep := by
    intro h
    rcases hsub _ h with h' | h' <;> simp at h'
  have hR : "right" ∉ keep := by
    intro h
    rcases hsub _ h with h' | h' <;> simp at h'
  by_cases hL : "left" ∈ keep <;> by_cases hB : "bottom" ∈ keep <;>
    simp [adjust_spines, adjustSpine, hL, hB, hT, hR, hl, hb]

/-- Concrete all-visible axes state used by witnesses. -/
def demoAxes : AxesState :=
  ⟨⟨"black", none, false⟩, ⟨"black", none, false⟩, ⟨"black", none, false⟩,
    ⟨"black", none, false⟩, ⟨"both", none⟩, ⟨"both", none⟩⟩

/-- Witness for C5 at keep-set ["left"] on a concrete all-visible axes
state: the left spine stays visible, bottom/top/right are hidden, and the
x-ticks are removed. -/
theorem adjust_spines_keep_spec_witness :
    ((adjust_spines ["left"] true false demoAxes).left.color ≠ "none" ↔ "left" ∈ ["left"]) ∧
    ((adjust_spines ["left"] true false demoAxes).bottom.color ≠ "none" ↔ "bottom" ∈ ["left"]) ∧
    (adjust_spines ["left"] true false demoAxes).top.color = "none" ∧
    (adjust_spines ["left"] true false demoAxes).right.color = "none" ∧
    ("left" ∉ ["left"] → (adjust_spines ["left"] true false demoAxes).yaxis.ticks = some []) ∧
    ("bottom" ∉ ["left"] → (adjust_spines ["left"] true false demoAxes).xaxis.ticks = some []) :=
  adjust_spines_keep_spec ["left"] true false demoAxes
    (by intro l hl; simp at hl; simp [hl]) (by decide) (by decide)

/-! ### Draggable legend placer -/

/-- The data of one plotted matplotlib line that the legend placers read:
its label, its color and its xy data. -/
structure Line2D where
  label : String
  color : String
  pts : List (ℚ × ℚ)
deriving DecidableEq, Repr, Inhabited

/-- One draggable text label created by `draggable_legend`
(`axis.annotate(label, xy=coords, ..., color=color, xycoords='axes fraction')`). -/
structure DragLabel where
  label : String
  x : ℚ
  y : ℚ
  color : String
deriving DecidableEq, Repr, Inhabited

/-- Embedding of `np.ceil(np.sqrt(n))` on a natural number. -/
def ceilSqrt (n : Nat) : Nat :=
  if n = 0 then 0 else Nat.sqrt (n - 1) + 1

/-- Embedding of `np.linspace(a, b, n)`: `n` evenly spaced values from `a` to `b`
inclusive (for `n = 1` just `[a]`). -/
def linspace (a b : ℚ) (n : Nat) : List ℚ :=
  if n = 0 then []
  else if n = 1 then [a]
  else (List.range n).map fun k : Nat => a + (b - a) * (k : ℚ) / ((n : ℚ) - 1)

/-- Embedding of `draggable_legend(axis, color_on)`: with `n =
ceil(sqrt(nlines))` and `lins = linspace(.1, .9, n)`, `np.meshgrid(lins,
lins)` followed by `reshape(-1)` gives the row-major flattenings
`xs[i*n+j] = lins[j]` (each row is a copy of `lins`) and `ys[i*n+j] =
lins[i]` (each value of `lins` repeated `n` times); the `idx`-th line's
label is annotated at `(xs[idx], ys[idx])` colored like the line (or
black). -/
def draggable_legend (lines : List Line2D) (color_on : Bool) : List DragLabel :=
  let nlines := lines.length
  let n := ceilSqrt nlines
  let lins := linspace (1/10) (9/10) n
  let xs := (List.replicate n lins).join
  let ys := lins.bind fun v => List.replicate n v
  lines.enum.map fun p =>
    { label := p.2.label
      x := xs.getD p.1 0
      y := ys.getD p.1 0
      color := if color_on then p.2.color else "k" }

/-- The square of `ceilSqrt n` is at least `n` (it really is the ceiling of
the square root). -/
theorem le_ceilSqrt_sq (n : Nat) : n ≤ ceilSqrt n * ceilSqrt n := by
  unfold ceilSqrt
  rcases Nat.eq_zero_or_pos n with h | h
  · simp [h]
  · have hn : n ≠ 0 := Nat.pos_iff_ne_zero.mp h
    simp only [hn, if_false]
    have := Nat.succ_le_succ_sqrt (n - 1)
    omega

/-- Moreover `ceilSqrt n` is the least `m` with `n ≤ m * m`. -/
theorem ceilSqrt_le (n m : Nat) (h : n ≤ m * m) : ceilSqrt n ≤ m := by
  unfold ceilSqrt
  rcases Nat.eq_zero_or_pos n with h0 | h0
  · simp [h0]
  · have hn : n ≠ 0 := Nat.pos_iff_ne_zero.mp h0
    simp only [hn, if_false]
    have : Nat.sqrt (n - 1) < m := Nat.sqrt_lt.mpr (by omega)
    omega

/-- A linspace of `n` points has length `n`. -/
theorem linspace_length (a b : ℚ) (n : Nat) : (linspace a b n).length = n := by
  unfold linspace
  split
  · simp [*]
  · split
    · simp [*]
    · rw [List.length_map, List.length_range]

/-- Row-major flattening of `m` copies of a list: position `i` holds the
list's entry at `i` modulo its length. -/
theorem join_replicate_getD (m : Nat) (l : List ℚ) (i : Nat)
    (hi : i < m * l.length) :
    ((List.replicate m l).join).getD i 0 = l.getD (i % l.length) 0 := by
  induction m generalizing i with
  | zero => simp at hi
  | succ m ih =>
    have hmul : (m + 1) * l.length = m * l.length + l.length :=
      Nat.succ_mul m l.length
    simp only [List.replicate_succ, List.join_cons]
    by_cases h : i < l.length
    · rw [List.getD_append _ _ _ _ h, Nat.mod_eq_of_lt h]
    · have hl : l.length ≤ i := Nat.le_of_not_lt h
      rw [List.getD_append_right _ _ _ _ hl, ih _ (by omega),
        Nat.mod_eq_sub_mod hl]

/-- Flattening that repeats each entry `n` times: position `i` holds the
list's entry at `i / n`. -/
theorem bind_replicate_getD (l : List ℚ) (n i : Nat) (hn : 0 < n)
    (hi : i < l.length * n) :
    (l.bind fun v => List.replicate n v).getD i 0 = l.getD (i / n) 0 := by
  induction l generalizing i with
  | nil => simp at hi
  | cons v t ih =>
    have hmul : (t.length + 1) * n = t.length * n + n := Nat.succ_mul t.length n
    simp only [List.length_cons] at hi
    simp only [List.cons_bind]
    by_cases h : i < n
    · rw [List.getD_append _ _ _ _ (by simpa using h), Nat.div_eq_of_lt h]
      simp [List.getD, List.getElem?_replicate, h]
    · have hni : n ≤ i := Nat.le_of_not_lt h
      rw [List.getD_append_right _ _ _ _ (by simpa using hni)]
      simp only [List.length_replicate]
      rw [ih _ (by omega), Nat.div_eq_sub_div hn hni]
      simp [List.getD]

/-- Concrete four-line axes used for the `n = 4` instance of the draggable
legend grid. -/
def demoLines4 : List Line2D :=
  [⟨"a", "C0", []⟩, ⟨"b", "C1", []⟩, ⟨"c", "C2", []⟩, ⟨"d", "C3", []⟩]

/-- C1: `draggable_legend` creates exactly one label per plotted line, the
`i`-th label sitting at the `i`-th entry, in row-major order, of the
`ceilSqrt n × ceilSqrt n` grid with coordinates `linspace 0.1 0.9` in each
axes-fraction dimension; for four lines the positions are
(0.1,0.1), (0.9,0.1), (0.1,0.9), (0.9,0.9) in index order. -/
theorem draggable_legend_grid (lines : List Line2D) (c : Bool) :
    ((draggable_legend lines c).length = lines.length ∧
      ∀ i, i < lines.length →
        ((draggable_legend lines c).getD i default).x =
          (linspace (1/10) (9/10) (ceilSqrt lines.length)).getD
            (i % ceilSqrt lines.length) 0 ∧
        ((draggable_legend lines c).getD i default).y =
          (linspace (1/10) (9/10) (ceilSqrt lines.length)).getD
            (i / ceilSqrt lines.length) 0) ∧
    (draggable_legend demoLines4 true).map (fun a => (a.x, a.y)) =
      [(1/10, 1/10), (9/10, 1/10), (1/10, 9/10), (9/10, 9/10)] := by
  constructor
  · constructor
    · simp [draggable_legend, List.enum_length]
    · intro i hi
      have hn : lines.length ≤ ceilSqrt lines.length * ceilSqrt lines.length :=
        le_ceilSqrt_sq lines.length
      have hpos : 0 < ceilSqrt lines.length := by
        have h0 : lines.length ≠ 0 := by omega
        unfold ceilSqrt
        simp [h0]
      have hlen : i < (draggable_legend lines c).length := by
        simpa [draggable_legend, List.enum_length] using hi
      rw [List.getD_eq_getElem _ _ hlen]
      simp only [draggable_legend, List.getElem_map, List.getElem_enum]
      constructor
      · have hx := join_replicate_getD (ceilSqrt lines.length)
          (linspace (1/10) (9/10) (ceilSqrt lines.length)) i
          (by rw [linspace_length]; omega)
        rw [linspace_length] at hx
        exact hx
      · refine bind_replicate_getD _ _ _ hpos ?_
        rw [linspace_length]
        omega
  · have hsq : Nat.sqrt 3 = 1 := (Nat.eq_sqrt.mpr (by norm_num)).symm
    have h2 : ceilSqrt 4 = 2 := by unfold ceilSqrt; norm_num [hsq]
    norm_num [draggable_legend, demoLines4, h2, linspace, List.range_succ,
      List.enum, List.enumFrom, List.getD, List.replicate_succ, List.join_cons,
      List.cons_append]

/-- Witness for C1 at the concrete four-line axes: four labels, the second
one (index 1) at grid cell (column 1, row 0), i.e. x = 0.9, y = 0.1. -/
theorem draggable_legend_grid_witness :
    1 < demoLines4.length ∧
    ((draggable_legend demoLines4 true).getD 1 default).x =
      (linspace (1/10) (9/10) (ceilSqrt demoLines4.length)).getD
        (1 % ceilSqrt demoLines4.length) 0 ∧
    ((draggable_legend demoLines4 true).getD 1 default).y =
      (linspace (1/10) (9/10) (ceilSqrt demoLines4.length)).getD
        (1 / ceilSqrt demoLines4.length) 0 :=
  ⟨by simp [demoLines4],
    ((draggable_legend_grid demoLines4 true).1.2 1 (by simp [demoLines4]))⟩

/-! ### Auto-placed legend -/

/-- Python `int()` applied to a rational: truncation toward zero. -/
def pyInt (q : ℚ) : ℤ := if 0 ≤ q then ⌊q⌋ else -⌊-q⌋

/-- The anchor index `int(rel_xloc[i] * coords[:,0].shape[0])` for a line
with `n` sample points. -/
def anchorIdx (r : ℚ) (n : Nat) : ℤ := pyInt (r * n)

/-- numpy integer indexing `coords[idx]`: a negative index wraps once from
the end; an index outside the valid range is an IndexError (`none`). -/
def npGet (l : List (ℚ × ℚ)) (i : ℤ) : Option (ℚ × ℚ) :=
  let j := if i < 0 then i + l.length else i
  if h : 0 ≤ j ∧ j.toNat < l.length then some (l.get ⟨j.toNat, h.2⟩) else none

/-- One static text label created by `auto_place_legend`
(`ax.text(coords[idx,0], coords[idx,1], label, ..., color=color)`). -/
structure TextObj where
  x : ℚ
  y : ℚ
  label : String
  color : String
deriving DecidableEq, Repr

/-- Loop body of `auto_place_legend` for one line: the anchor index is
`int(rel_xloc[i] * N)` when a relative location is given, otherwise the
random draw `rnd`; the text is created at the data point at that index
(an out-of-range index is an IndexError, `none`). -/
def placeText (color_on : Bool) (line : Line2D) (r : Option ℚ) (rnd : Nat) :
    Option TextObj :=
  let idx : ℤ := match r with
    | some rq => anchorIdx rq line.pts.length
    | none => rnd
  (npGet line.pts idx).map fun p =>
    { x := p.1, y := p.2, label := line.label
      color := if color_on then line.color else "k" }

/-- The `rel_xloc` argument of `auto_place_legend`: `None`, a float
scalar, or a list of per-line values. -/
inductive RelXLoc where
  | unset : RelXLoc
  | scalar (r : ℚ) : RelXLoc
  | ofList (rs : List ℚ) : RelXLoc
deriving DecidableEq, Repr

/-- Collect a list of fallible results, failing at the first failure
(the Python loop raising part-way through). -/
def optList {α : Type} : List (Option α) → Option (List α)
  | [] => some []
  | Option.none :: _ => Option.none
  | some a :: t => (optList t).map (a :: ·)

/-- Embedding of `auto_place_legend(ax, rel_xloc, color_on, **kwargs)`:
a float scalar `rel_xloc` is first broadcast to `nLines * [rel_xloc]`;
then each line's label text is placed by `placeText` at the point picked
from the line's data (`rng` supplies the random draws used when
`rel_xloc` is `None`; `rs[i]` out of range is an IndexError). -/
def auto_place_legend (lines : List Line2D) (rel_xloc : RelXLoc)
    (color_on : Bool) (rng : Nat → Nat) : Option (List TextObj) :=
  let nLines := lines.length
  let rel : Option (List ℚ) := match rel_xloc with
    | .unset => Option.none
    | .scalar r => some (List.replicate nLines r)
    | .ofList rs => some rs
  optList <| lines.enum.map fun p =>
    match rel with
    | some rs =>
      match rs[p.1]? with
      | some rq => placeText color_on p.2 (some rq) (rng p.1)
      | Option.none => Option.none
    | Option.none => placeText color_on p.2 Option.none (rng p.1)

/-- Concrete line with 11 sample points `(k, 10 k)` used for the
`rel_xloc = 0.5` instance. -/
def demoLine11 : Line2D :=
  ⟨"f", "C0", [(0, 0), (1, 10), (2, 20), (3, 30), (4, 40), (5, 50),
    (6, 60), (7, 70), (8, 80), (9, 90), (10, 100)]⟩

/-- C2: for a nonnegative relative location `r`, the computed anchor index
is `⌊r * N⌋` and the label is placed at the data point with that index;
in particular `rel_xloc = 0.5` on an 11-point line anchors the label at
the point with index 5. -/
theorem auto_place_anchor :
    (∀ (r : ℚ) (n : Nat), 0 ≤ r → anchorIdx r n = ⌊r * (n : ℚ)⌋) ∧
    (∀ (c : Bool) (line : Line2D) (r : ℚ) (rnd : Nat), 0 ≤ r →
      placeText c line (some r) rnd =
        (line.pts[(⌊r * (line.pts.length : ℚ)⌋).toNat]?).map fun p =>
          { x := p.1, y := p.2, label := line.label
            color := if c then line.color else "k" }) ∧
    anchorIdx (1/2) 11 = 5 ∧
    auto_place_legend [demoLine11] (RelXLoc.scalar (1/2)) true (fun _ => 0) =
      some [{ x := 5, y := 50, label := "f", color := "C0" }] := by
  have hanchor : ∀ (r : ℚ) (n : Nat), 0 ≤ r → anchorIdx r n = ⌊r * (n : ℚ)⌋ := by
    intro r n hr
    have h0 : (0:ℚ) ≤ r * n := mul_nonneg hr (Nat.cast_nonneg _)
    simp [anchorIdx, pyInt, h0]
  have hplace : ∀ (c : Bool) (line : Line2D) (r : ℚ) (rnd : Nat), 0 ≤ r →
      placeText c line (some r) rnd =
        (line.pts[(⌊r * (line.pts.length : ℚ)⌋).toNat]?).map fun p =>
          { x := p.1, y := p.2, label := line.label
            color := if c then line.color else "k" } := by
    intro c line r rnd hr
    have h0 : (0:ℚ) ≤ r * line.pts.length := mul_nonneg hr (Nat.cast_nonneg _)
    have hfl : 0 ≤ ⌊r * (line.pts.length : ℚ)⌋ := Int.floor_nonneg.mpr h0
    have hcond : ¬(⌊r * (line.pts.length : ℚ)⌋ < 0) := by omega
    simp only [placeText, hanchor r line.pts.length hr, npGet, if_neg hcond]
    by_cases h : (⌊r * (line.pts.length : ℚ)⌋).toNat < line.pts.length
    · rw [dif_pos ⟨hfl, h⟩, List.getElem?_eq_getElem h]
      simp [List.get_eq_getElem]
    · have hnot : ¬(0 ≤ ⌊r * (line.pts.length : ℚ)⌋ ∧
          (⌊r * (line.pts.length : ℚ)⌋).toNat < line.pts.length) :=
        fun hcontra => h hcontra.2
      rw [dif_neg hnot, List.getElem?_eq_none (by omega)]
  have hhalf : (⌊(11/2 : ℚ)⌋ : ℤ) = 5 := Int.floor_eq_iff.mpr (by norm_num)
  refine ⟨hanchor, hplace, ?_, ?_⟩
  · rw [hanchor (1/2) 11 (by norm_num),
      show (1/2 : ℚ) * ((11 : Nat) : ℚ) = (11/2 : ℚ) by norm_num]
    exact hhalf
  · have hlen : demoLine11.pts.length = 11 := by simp [demoLine11]
    have hp := hplace true demoLine11 (1/2) 0 (by norm_num)
    rw [hlen] at hp
    have hfl5 : (⌊(1/2 : ℚ) * ((11 : Nat) : ℚ)⌋).toNat = 5 := by
      rw [show (1/2 : ℚ) * ((11 : Nat) : ℚ) = (11/2 : ℚ) by norm_num, hhalf]
      decide
    rw [hfl5] at hp
    have hpt : demoLine11.pts[5]? = some (5, 50) := by simp [demoLine11]
    rw [hpt] at hp
    have hstep : auto_place_legend [demoLine11] (RelXLoc.scalar (1/2)) true
        (fun _ => 0) = optList [placeText true demoLine11 (some (1/2)) 0] := by
      simp [auto_place_legend, List.enum, List.enumFrom, List.getElem?_replicate]
    rw [hstep, hp]
    simp [optList, demoLine11]

/-- Witness for C2 at `r = 1/2`, an 11-point line: the anchor index is
`⌊1/2 * 11⌋` and the placed text is the mapped data point at that index. -/
theorem auto_place_anchor_witness :
    anchorIdx (1/2) 11 = ⌊(1/2 : ℚ) * ((11 : Nat) : ℚ)⌋ ∧
    placeText true demoLine11 (some (1/2)) 0 =
      (demoLine11.pts[(⌊(1/2 : ℚ) * (demoLine11.pts.length : ℚ)⌋).toNat]?).map
        (fun p => { x := p.1, y := p.2, label := demoLine11.label
                    color := if true then demoLine11.color else "k" }) :=
  ⟨auto_place_anchor.1 (1/2) 11 (by norm_num),
    auto_place_anchor.2.1 true demoLine11 (1/2) 0 (by norm_num)⟩

/-- C8: a scalar `rel_xloc` is broadcast to every line: the call behaves
exactly as if a list of `nLines` copies of the scalar had been passed. -/
theorem auto_place_scalar_broadcast (lines : List Line2D) (r : ℚ)
    (c : Bool) (rng : Nat → Nat) :
    auto_place_legend lines (RelXLoc.scalar r) c rng =
      auto_place_legend lines (RelXLoc.ofList (List.replicate lines.length r)) c rng :=
  rfl

/-- C9: for `0 ≤ r < 1` the anchor index is a valid index into a nonempty
line's data, but `r = 1` yields index `N`, which is out of range, so the
text placement raises (`none`): the documented domain `[0, 1]` is not
fully safe. -/
theorem anchor_index_range :
    (∀ (r : ℚ) (n : Nat), 0 ≤ r → r < 1 → 0 < n →
      0 ≤ anchorIdx r n ∧ anchorIdx r n < n) ∧
    (∀ n : Nat, anchorIdx 1 n = n) ∧
    (∀ (line : Line2D) (c : Bool) (rnd : Nat), 0 < line.pts.length →
      placeText c line (some 1) rnd = Option.none) := by
  have hone : ∀ n : Nat, anchorIdx 1 n = n := by
    intro n
    simp [anchorIdx, pyInt, Nat.cast_nonneg]
  refine ⟨?_, hone, ?_⟩
  · intro r n hr hr1 hn
    have h0 : (0:ℚ) ≤ r * n := mul_nonneg hr (Nat.cast_nonneg _)
    have hflnn : 0 ≤ ⌊r * (n : ℚ)⌋ := Int.floor_nonneg.mpr h0
    have hlt : r * (n : ℚ) < n := by
      have : (0:ℚ) < n := by exact_mod_cast hn
      calc r * (n : ℚ) < 1 * n := by exact mul_lt_mul_of_pos_right hr1 this
        _ = n := one_mul _
    constructor
    · simpa [anchorIdx, pyInt, h0] using hflnn
    · simp only [anchorIdx, pyInt, if_pos h0]
      exact_mod_cast Int.floor_lt.mpr (by exact_mod_cast hlt)
  · intro line c rnd hlen
    have h1 := hone line.pts.length
    have hc1 : ¬((line.pts.length : ℤ) < 0) := by omega
    have hc2 : ¬(0 ≤ (line.pts.length : ℤ) ∧
        ((line.pts.length : ℤ)).toNat < line.pts.length) := by simp
    simp only [placeText, h1, npGet, if_neg hc1, dif_neg hc2]
    simp

/-- Witness for C9 at `r = 1/2, n = 11` (valid index 5) and at the
11-point demo line with `r = 1` (IndexError). -/
theorem anchor_index_range_witness :
    (0 ≤ anchorIdx (1/2) 11 ∧ anchorIdx (1/2) 11 < 11) ∧
    anchorIdx 1 11 = 11 ∧
    placeText true demoLine11 (some 1) 0 = Option.none :=
  ⟨anchor_index_range.1 (1/2) 11 (by norm_num) (by norm_num) (by norm_num),
    anchor_index_range.2.1 11,
    anchor_index_range.2.2 demoLine11 true 0 (by simp [demoLine11])⟩

/-! ### Horizontal bar chart -/

/-- Python `max` on a list of rationals (junk value 0 on the empty list,
where Python raises). -/
def listMax : List ℚ → ℚ
  | [] => 0
  | x :: xs => xs.foldl max x

/-- Round half to even, the rounding applied to the scaled value when
formatting a value with a fixed number of decimal digits. -/
def roundHalfEven (q : ℚ) : ℤ :=
  let f := ⌊q⌋
  let r := q - f
  if r < 1/2 then f
  else if 1/2 < r then f + 1
  else if f % 2 = 0 then f else f + 1

/-- Little-endian decimal digits of a natural number, with explicit fuel
so that the definition evaluates by reduction. -/
def digitsAux : Nat → Nat → List Nat
  | _, 0 => []
  | n, fuel + 1 => if n = 0 then [] else n % 10 :: digitsAux (n / 10) fuel

/-- Little-endian decimal digits of `n` (empty for 0). -/
def decDigits (n : Nat) : List Nat := digitsAux n n

/-- Decimal digit characters of `n`, most significant first. -/
def natDigitChars (n : Nat) : List Char :=
  (decDigits n).reverse.map fun d => Char.ofNat (48 + d)

/-- Decimal rendering of a natural number. -/
def natToStr (n : Nat) : List Char :=
  if n = 0 then ['0'] else natDigitChars n

/-- Left-pad a digit string with '0' to length `n`. -/
def padLeftZeros (l : List Char) (n : Nat) : List Char :=
  List.replicate (n - l.length) '0' ++ l

/-- Fixed-point rendering of `q` with `nd` digits after the decimal point,
as produced by Python string formatting with precision `nd` (no decimal
point at all when `nd = 0`). -/
def formatFixed (q : ℚ) (nd : Nat) : List Char :=
  let scaled := roundHalfEven (q * (10 : ℚ) ^ nd)
  let sign : List Char := if scaled < 0 then ['-'] else []
  let n := scaled.natAbs
  let ip := n / 10 ^ nd
  let fp := n % 10 ^ nd
  if nd = 0 then sign ++ natToStr ip
  else sign ++ natToStr ip ++ '.' :: padLeftZeros (natDigitChars fp) nd

/-- Number of characters after the first decimal point of a rendered
string; 0 when there is no decimal point. -/
def fracCount (l : List Char) : Nat :=
  match l.dropWhile (fun c => c ≠ '.') with
  | [] => 0
  | _ :: t => t.length

/-- The per-entry observable layout of one `horiz_bar` panel: the row
label, the marker position `(t, 1)`, the x-range `set_xlim(0,
t_max*1.05)` and the formatted value text. -/
structure BarPanel where
  label : String
  markerX : ℚ
  xlimLo : ℚ
  xlimHi : ℚ
  valueText : List Char
deriving DecidableEq, Repr, Inhabited

/-- The observable output of `horiz_bar`: the panels drawn by the
`zip(labels, times, axarr)` loop, the figure size and the output file. -/
structure BarChart where
  panels : List BarPanel
  width : ℚ
  height : ℚ
  filename : String
deriving DecidableEq, Repr

/-- Embedding of `horiz_bar(labels, times, header, ts, nd, size, color)`:
one sub-panel per `zip(labels, times, axarr)` entry (`axarr` has
`len(times)` panels), each with x-range `(0, max(times)*1.05)`, the value
rendered with `nd` decimal digits, the whole figure sized
`(size[0], size[1]*len(times))` and saved as `bar_chart.pdf`. -/
def horiz_bar (labels : List String) (times : List ℚ) (header : String × String)
    (ts : ℚ) (nd : Nat) (size : ℚ × ℚ) (color : String) : BarChart :=
  let num := times.length
  let t_max := listMax times
  { panels := ((labels.zip times).take num).map fun p =>
      { label := p.1
        markerX := p.2
        xlimLo := 0
        xlimHi := t_max * (105/100)
        valueText := formatFixed p.2 nd }
    width := size.1
    height := size.2 * num
    filename := "bar_chart.pdf" }

/-- Every digit produced by `digitsAux` is below 10. -/
theorem digitsAux_lt (fuel n : Nat) : ∀ d ∈ digitsAux n fuel, d < 10 := by
  induction fuel generalizing n with
  | zero => simp [digitsAux]
  | succ fuel ih =>
    intro d hd
    by_cases h : n = 0
    · simp [digitsAux, h] at hd
    · simp only [digitsAux, h, if_false, List.mem_cons] at hd
      rcases hd with hd | hd
      · omega
      · exact ih _ _ hd

/-- A number below `10 ^ k` has at most `k` decimal digits. -/
theorem digitsAux_len (fuel : Nat) : ∀ n k, n < 10 ^ k →
    (digitsAux n fuel).length ≤ k := by
  induction fuel with
  | zero => intro n k _; simp [digitsAux]
  | succ fuel ih =>
    intro n k hk
    by_cases h : n = 0
    · simp [digitsAux, h]
    · simp only [digitsAux, h, if_false, List.length_cons]
      cases k with
      | zero => simp at hk; omega
      | succ k =>
        have hdiv : n / 10 < 10 ^ k := by
          rw [Nat.div_lt_iff_lt_mul (by norm_num)]
          calc n < 10 ^ (k + 1) := hk
            _ = 10 ^ k * 10 := by rw [pow_succ]
        exact Nat.succ_le_succ (ih _ _ hdiv)

/-- No decimal digit character is the decimal point. -/
theorem digit_char_ne_dot (d : Nat) (hd : d < 10) :
    Char.ofNat (48 + d) ≠ '.' := by
  interval_cases d <;> decide

/-- The digit characters of a natural number never include the decimal
point. -/
theorem natDigitChars_no_dot (n : Nat) : ∀ c ∈ natDigitChars n, c ≠ '.' := by
  intro c hc
  simp only [natDigitChars, List.mem_map, List.mem_reverse] at hc
  obtain ⟨d, hd, rfl⟩ := hc
  exact digit_char_ne_dot d (digitsAux_lt n n d hd)

/-- The decimal rendering of a natural number never includes the decimal
point. -/
theorem natToStr_no_dot (n : Nat) : ∀ c ∈ natToStr n, c ≠ '.' := by
  intro c hc
  by_cases h : n = 0
  · simp [natToStr, h] at hc
    simp [hc]
  · simp only [natToStr, h, if_false] at hc
    exact natDigitChars_no_dot n c hc

/-- Dropping while a predicate holds over an append whose first part wholly
satisfies the predicate continues in the second part. -/
theorem dropWhile_append_all {α : Type} (p : α → Bool) (l₁ l₂ : List α)
    (h : ∀ a ∈ l₁, p a) :
    (l₁ ++ l₂).dropWhile p = l₂.dropWhile p := by
  induction l₁ with
  | nil => simp
  | cons a t ih =>
    simp only [List.cons_append, List.dropWhile_cons, h a (by simp), if_true]
    exact ih fun a ha => h a (by simp [ha])

/-- Dropping while a predicate holds over a list wholly satisfying it
leaves nothing. -/
theorem dropWhile_all {α : Type} (p : α → Bool) (l : List α)
    (h : ∀ a ∈ l, p a) : l.dropWhile p = [] := by
  have := dropWhile_append_all p l [] h
  simpa using this

/-- A rendered string without a decimal point has `fracCount` 0. -/
theorem fracCount_eq_zero (l : List Char) (h : ∀ c ∈ l, c ≠ '.') :
    fracCount l = 0 := by
  unfold fracCount
  rw [dropWhile_all _ _ (by intro a ha; simpa using h a ha)]

/-- The fraction count of a dot-free prefix, a dot, then a suffix is the
length of the suffix. -/
theorem fracCount_append_dot (l₁ l₂ : List Char) (h : ∀ c ∈ l₁, c ≠ '.') :
    fracCount (l₁ ++ '.' :: l₂) = l₂.length := by
  unfold fracCount
  rw [dropWhile_append_all _ _ _ (by intro a ha; simpa using h a ha),
    List.dropWhile_cons]
  simp

/-- The rendered fraction part of `formatFixed` has exactly `nd`
characters: `fracCount (formatFixed q nd) = nd` for every `q`. -/
theorem fracCount_formatFixed (q : ℚ) (nd : Nat) :
    fracCount (formatFixed q nd) = nd := by
  have hsign : ∀ c ∈ (if roundHalfEven (q * (10:ℚ) ^ nd) < 0
      then (['-'] : List Char) else []), c ≠ '.' := by
    split <;> simp
  by_cases h0 : nd = 0
  · subst h0
    rw [show formatFixed q 0 =
      (if roundHalfEven (q * (10:ℚ) ^ 0) < 0 then ['-'] else []) ++
        natToStr ((roundHalfEven (q * (10:ℚ) ^ 0)).natAbs / 10 ^ 0) from rfl]
    apply fracCount_eq_zero
    intro c hc
    rcases List.mem_append.mp hc with hc | hc
    · exact hsign c hc
    · exact natToStr_no_dot _ c hc
  · have hform : formatFixed q nd =
        ((if roundHalfEven (q * (10:ℚ) ^ nd) < 0 then ['-'] else []) ++
          natToStr ((roundHalfEven (q * (10:ℚ) ^ nd)).natAbs / 10 ^ nd)) ++
          '.' :: padLeftZeros
            (natDigitChars ((roundHalfEven (q * (10:ℚ) ^ nd)).natAbs % 10 ^ nd)) nd := by
      simp only [formatFixed, h0, if_false]
    rw [hform, fracCount_append_dot]
    · have hfp : (roundHalfEven (q * (10:ℚ) ^ nd)).natAbs % 10 ^ nd < 10 ^ nd :=
        Nat.mod_lt _ (Nat.pos_pow_of_pos nd (by norm_num))
      have hlen : (natDigitChars
          ((roundHalfEven (q * (10:ℚ) ^ nd)).natAbs % 10 ^ nd)).length ≤ nd := by
        simp only [natDigitChars, List.length_map, List.length_reverse, decDigits]
        exact digitsAux_len _ _ _ hfp
      simp only [padLeftZeros, List.length_append, List.length_replicate]
      omega
    · intro c hc
      rcases List.mem_append.mp hc with hc | hc
      · exact hsign c hc
      · exact natToStr_no_dot _ c hc

/-- C3: every panel of `horiz_bar` gets x-range `[0, max(times) * 1.05]`
and value text `formatFixed t nd`, which always carries exactly `nd`
digits after the decimal point; for labels ["A","BB"], times [10,20],
header ("L","R"), nd = 1 the chart has exactly two panels, the second
showing "20.0" with x-range upper bound 21 = 20 * 1.05, written to the
file named exactly "bar_chart.pdf". -/
theorem horiz_bar_layout :
    (∀ (labels : List String) (times : List ℚ) (header : String × String)
        (ts : ℚ) (nd : Nat) (size : ℚ × ℚ) (color : String) (p : BarPanel),
      p ∈ (horiz_bar labels times header ts nd size color).panels →
        p.xlimLo = 0 ∧ p.xlimHi = listMax times * (105/100) ∧
        p.valueText = formatFixed p.markerX nd ∧
        fracCount p.valueText = nd) ∧
    ((horiz_bar ["A", "BB"] [10, 20] ("L", "R") 1 1 (5, 1/2) "#FFCC00").panels.length = 2 ∧
      ((horiz_bar ["A", "BB"] [10, 20] ("L", "R") 1 1 (5, 1/2) "#FFCC00").panels.getD 1
        default).valueText = ['2', '0', '.', '0'] ∧
      ((horiz_bar ["A", "BB"] [10, 20] ("L", "R") 1 1 (5, 1/2) "#FFCC00").panels.getD 1
        default).xlimHi = 21 ∧
      (21 : ℚ) = 20 * (105/100) ∧
      (horiz_bar ["A", "BB"] [10, 20] ("L", "R") 1 1 (5, 1/2) "#FFCC00").filename =
        "bar_chart.pdf") := by
  constructor
  · intro labels times header ts nd size color p hp
    simp only [horiz_bar, List.mem_map] at hp
    obtain ⟨x, _, rfl⟩ := hp
    refine ⟨rfl, rfl, rfl, ?_⟩
    exact fracCount_formatFixed _ _
  · have h200 : roundHalfEven ((20 : ℚ) * (10 : ℚ) ^ 1) = 200 := by
      norm_num [roundHalfEven]
    have hfmt : formatFixed 20 1 = ['2', '0', '.', '0'] := by
      rw [formatFixed, h200]
      decide
    have hmax : listMax [10, 20] = 20 := by
      norm_num [listMax, max_eq_right]
    refine ⟨?_, ?_, ?_, by norm_num, rfl⟩
    · simp [horiz_bar]
    · simp only [horiz_bar, hmax]
      norm_num [List.zip, List.zipWith, hfmt]
    · simp only [horiz_bar, hmax]
      norm_num [List.zip, List.zipWith]

/-- Witness for C3's universal part at a concrete call: the second panel
of the two-entry chart satisfies the per-panel layout facts. -/
theorem horiz_bar_layout_witness :
    ((horiz_bar ["A", "BB"] [10, 20] ("L", "R") 1 1 (5, 1/2) "#FFCC00").panels.getD 1
      default).xlimLo = 0 ∧
    ((horiz_bar ["A", "BB"] [10, 20] ("L", "R") 1 1 (5, 1/2) "#FFCC00").panels.getD 1
      default).xlimHi = listMax [10, 20] * (105/100) ∧
    ((horiz_bar ["A", "BB"] [10, 20] ("L", "R") 1 1 (5, 1/2) "#FFCC00").panels.getD 1
      default).valueText = formatFixed
        (((horiz_bar ["A", "BB"] [10, 20] ("L", "R") 1 1 (5, 1/2) "#FFCC00").panels.getD 1
          default).markerX) 1 ∧
    fracCount (((horiz_bar ["A", "BB"] [10, 20] ("L", "R") 1 1 (5, 1/2) "#FFCC00").panels.getD 1
      default).valueText) = 1 :=
  horiz_bar_layout.1 ["A", "BB"] [10, 20] ("L", "R") 1 1 (5, 1/2) "#FFCC00" _
    (by norm_num [horiz_bar, List.zip, List.zipWith])

/-! ### Stacked panel builder -/

/-- A value of the per-series mapping passed to `stacked_plots`: either a
raw data sequence or a descriptor dict holding a `data` entry and
optional `limits` / `ticks` entries. -/
inductive YData where
  | raw (data : List ℚ) : YData
  | desc (data : List ℚ) (limits : Option (ℚ × ℚ)) (ticks : Option (List ℚ)) : YData
deriving DecidableEq, Repr

/-- The sequence actually plotted for a mapping value
(`if type(ydata) == dict: ydata = ydata['data']`). -/
def ydataList : YData → List ℚ
  | .raw d => d
  | .desc d _ _ => d

/-- The `data_dict_list` argument of `stacked_plots`: a single mapping or
a list of mappings (each an ordered association list). -/
inductive DataInput where
  | dict (d : List (String × YData)) : DataInput
  | dictList (ds : List (List (String × YData))) : DataInput
deriving DecidableEq, Repr

/-- The dict-to-singleton-list normalization at the top of
`stacked_plots`: a bare dict becomes the one-element list holding it,
before any other processing. -/
def normInput : DataInput → List (List (String × YData))
  | .dict d => [d]
  | .dictList ds => ds

/-- Observable per-panel state produced by `stacked_plots`. -/
structure SPanel where
  ylabel : String
  ylim : Option (ℚ × ℚ)
  yticks : Option (List ℚ)
  plots : List (List ℚ × List ℚ)
  xticks : Option (List ℚ)
  spinesAdjusted : Bool
deriving DecidableEq, Repr

/-- Observable output of `stacked_plots`: the panel states, the x-label
set on the last panel and the file the figure is saved to. -/
structure SResult where
  panels : List SPanel
  xlabel : String
  filename : String
deriving DecidableEq, Repr

/-- First loop of `stacked_plots`: for a descriptor carrying `limits`,
apply them; else for one carrying `ticks`, set those tick positions and
the cushion-expanded y-limits (`ydata['ticks'][0]` / `[-1]` — a junk
default 0 stands in for Python's IndexError on an empty ticks list);
always set the y-label. -/
def setupPanel (cushion : ℚ) (item : String × YData) : SPanel :=
  let base : SPanel := ⟨item.1, none, none, [], none, false⟩
  match item.2 with
  | .raw _ => base
  | .desc _ limits ticks =>
    match limits with
    | some L => { base with ylim := some L }
    | none =>
      match ticks with
      | some ts =>
        let low_tick := ts.headD 0
        let high_tick := ts.getLastD 0
        let height := high_tick - low_tick
        { base with
          yticks := some ts
          ylim := some (low_tick - cushion * height, high_tick + cushion * height) }
      | none => base

/-- Second loop: every mapping in the list contributes one plotted
line-plus-scatter per panel, sharing `xdata`. -/
def addPlots (xdata : List ℚ) (ddl : List (List (String × YData))) (i : Nat)
    (p : SPanel) : SPanel :=
  { p with
    plots := ddl.filterMap fun dd => (dd[i]?).map fun it => (xdata, ydataList it.2) }

/-- Third loop: `adjust_spines` is applied to each panel; every panel but
the last has its x-ticks removed, the last keeps bottom ticks (set to the
explicit `xticks` when given). -/
def finishPanel (total : Nat) (xticks : Option (List ℚ)) (i : Nat)
    (p : SPanel) : SPanel :=
  let p1 := { p with spinesAdjusted := true }
  if i < total - 1 then { p1 with xticks := some [] }
  else
    match xticks with
    | some ts => { p1 with xticks := some ts }
    | none => p1

/-- Embedding of `stacked_plots(xlabel, xdata, data_dict_list, figsize,
pad, filename, xticks, cushion)`: normalize the input, lay out one panel
per entry of the first mapping, then run the three loops and save to
`filename`. -/
def stacked_plots (xlabel : String) (xdata : List ℚ) (input : DataInput)
    (filename : String) (xticks : Option (List ℚ)) (cushion : ℚ) : SResult :=
  let ddl := normInput input
  let data_dict := ddl.headD []
  let panels0 := data_dict.map (setupPanel cushion)
  let panels1 := panels0.enum.map fun p => addPlots xdata ddl p.1 p.2
  let panels2 := panels1.enum.map fun p => finishPanel panels1.length xticks p.1 p.2
  { panels := panels2, xlabel := xlabel, filename := filename }

/-- The third loop does not change a panel's y-limits. -/
theorem finishPanel_ylim (total : Nat) (xticks : Option (List ℚ)) (i : Nat)
    (p : SPanel) : (finishPanel total xticks i p).ylim = p.ylim := by
  unfold finishPanel
  split
  · rfl
  · split <;> rfl

/-- The third loop does not change a panel's y-ticks. -/
theorem finishPanel_yticks (total : Nat) (xticks : Option (List ℚ)) (i : Nat)
    (p : SPanel) : (finishPanel total xticks i p).yticks = p.yticks := by
  unfold finishPanel
  split
  · rfl
  · split <;> rfl

/-- The `i`-th panel of `stacked_plots` is the `i`-th entry of the first
mapping pushed through the three loop bodies. -/
theorem stacked_plots_getElem? (xlabel : String) (xdata : List ℚ)
    (input : DataInput) (filename : String) (xticks : Option (List ℚ))
    (cushion : ℚ) (i : Nat) :
    (stacked_plots xlabel xdata input filename xticks cushion).panels[i]? =
      (((normInput input).headD [])[i]?).map fun it =>
        finishPanel ((normInput input).headD []).length xticks i
          (addPlots xdata (normInput input) i (setupPanel cushion it)) := by
  simp only [stacked_plots, List.getElem?_map, List.getElem?_enum,
    Option.map_map, List.length_map, List.enum_length]
  cases hd : (((normInput input).headD [])[i]?) <;> simp [hd]

/-- C4: a panel whose descriptor carries `ticks` (and no limits) gets
y-limits `[first - cushion*(last - first), last + cushion*(last -
first)]`; for ticks = [0, 10] and cushion = 0.1 the derived y-limits are
exactly [-1, 11]. -/
theorem stacked_plots_ticks_ylim :
    (∀ (xlabel : String) (xdata : List ℚ) (pre post : List (String × YData))
        (name : String) (dataL ts : List ℚ) (cushion : ℚ) (filename : String)
        (xticks : Option (List ℚ)) (h : ts ≠ []),
      ((stacked_plots xlabel xdata
          (DataInput.dictList [pre ++ (name, YData.desc dataL none (some ts)) :: post])
          filename xticks cushion).panels[pre.length]?).map SPanel.ylim =
        some (some (ts.head h - cushion * (ts.getLast h - ts.head h),
          ts.getLast h + cushion * (ts.getLast h - ts.head h)))) ∧
    ((stacked_plots "x" [0, 1]
        (DataInput.dictList [[("a", YData.desc [1, 2] none (some [0, 10])),
          ("b", YData.raw [3, 4])]])
        "stacks.png" none (1/10)).panels[0]?).map
      (fun p => (p.ylim, p.yticks)) =
        some (some ((-1 : ℚ), (11 : ℚ)), some ([0, 10] : List ℚ)) := by
  constructor
  · intro xlabel xdata pre post name dataL ts cushion filename xticks h
    rw [stacked_plots_getElem?]
    have hget : (((normInput
        (DataInput.dictList [pre ++ (name, YData.desc dataL none (some ts)) :: post])).headD
          [])[pre.length]?) = some (name, YData.desc dataL none (some ts)) := by
      simp only [normInput, List.headD]
      rw [List.getElem?_append_right (Nat.le_refl _)]
      simp
    rw [hget]
    rcases ts with _ | ⟨t, rest⟩
    · exact absurd rfl h
    · have hlast : (t :: rest).getLast?.getD 0 = (t :: rest).getLast h := by
        rw [List.getLast?_eq_getLast _ h]
        rfl
      simp [finishPanel_ylim, addPlots, setupPanel, hlast]
  · rw [stacked_plots_getElem?]
    have hl : ([0, 10] : List ℚ).getLastD 0 = 10 := rfl
    norm_num [normInput, setupPanel, addPlots, finishPanel_ylim,
      finishPanel_yticks, hl]

/-- Witness for C4 at ticks = [0, 10], cushion = 0.1 on a two-panel
call: the first panel's derived y-limits are [-1, 11]. -/
theorem stacked_plots_ticks_ylim_witness :
    ((stacked_plots "x" [0, 1]
        (DataInput.dictList [([] : List (String × YData)) ++
          ("a", YData.desc [1, 2] none (some [0, 10])) :: [("b", YData.raw [3, 4])]])
        "stacks.png" none (1/10)).panels[(List.length
          ([] : List (String × YData)))]?).map SPanel.ylim =
      some (some (([0, 10] : List ℚ).head (by simp) -
          (1/10) * (([0, 10] : List ℚ).getLast (by simp) - ([0, 10] : List ℚ).head (by simp)),
        ([0, 10] : List ℚ).getLast (by simp) +
          (1/10) * (([0, 10] : List ℚ).getLast (by simp) - ([0, 10] : List ℚ).head (by simp)))) :=
  stacked_plots_ticks_ylim.1 "x" [0, 1] [] [("b", YData.raw [3, 4])] "a"
    [1, 2] [0, 10] (1/10) "stacks.png" none (by simp)

/-- C7: when a descriptor carries both `limits` and `ticks`, the limits
are applied and the ticks branch is not taken (no y-ticks are set); a
descriptor with neither key leaves y-limits and y-ticks to the plotting
library. -/
theorem stacked_plots_limits_precedence :
    (∀ (xlabel : String) (xdata : List ℚ) (pre post : List (String × YData))
        (name : String) (dataL : List ℚ) (L : ℚ × ℚ) (T : List ℚ)
        (cushion : ℚ) (filename : String) (xticks : Option (List ℚ)),
      ((stacked_plots xlabel xdata
          (DataInput.dictList [pre ++ (name, YData.desc dataL (some L) (some T)) :: post])
          filename xticks cushion).panels[pre.length]?).map
        (fun p => (p.ylim, p.yticks)) = some (some L, none)) ∧
    (∀ (xlabel : String) (xdata : List ℚ) (pre post : List (String × YData))
        (name : String) (dataL : List ℚ) (cushion : ℚ) (filename : String)
        (xticks : Option (List ℚ)),
      ((stacked_plots xlabel xdata
          (DataInput.dictList [pre ++ (name, YData.desc dataL none none) :: post])
          filename xticks cushion).panels[pre.length]?).map
        (fun p => (p.ylim, p.yticks)) = some (none, none)) := by
  constructor
  · intro xlabel xdata pre post name dataL L T cushion filename xticks
    rw [stacked_plots_getElem?]
    have hget : (((normInput
        (DataInput.dictList [pre ++ (name, YData.desc dataL (some L) (some T)) :: post])).headD
          [])[pre.length]?) = some (name, YData.desc dataL (some L) (some T)) := by
      simp only [normInput, List.headD]
      rw [List.getElem?_append_right (Nat.le_refl _)]
      simp
    rw [hget]
    simp [finishPanel_ylim, finishPanel_yticks, addPlots, setupPanel]
  · intro xlabel xdata pre post name dataL cushion filename xticks
    rw [stacked_plots_getElem?]
    have hget : (((normInput
        (DataInput.dictList [pre ++ (name, YData.desc dataL none none) :: post])).headD
          [])[pre.length]?) = some (name, YData.desc dataL none none) := by
      simp only [normInput, List.headD]
      rw [List.getElem?_append_right (Nat.le_refl _)]
      simp
    rw [hget]
    simp [finishPanel_ylim, finishPanel_yticks, addPlots, setupPanel]

/-- C10: passing a single mapping is the same as passing the singleton
list holding it: the dict is normalized to `[data_dict_list]` before any
other processing. -/
theorem stacked_plots_dict_singleton (xlabel : String) (xdata : List ℚ)
    (d : List (String × YData)) (filename : String)
    (xticks : Option (List ℚ)) (cushion : ℚ) :
    stacked_plots xlabel xdata (DataInput.dict d) filename xticks cushion =
      stacked_plots xlabel xdata (DataInput.dictList [d]) filename xticks cushion :=
  rfl

/-- C6: `adjust_spines` is idempotent: calling it twice with the same
arguments leaves the axes in the same state as calling it once. -/
theorem adjust_spines_idempotent (keep : List String) (sb ow : Bool) (ax : AxesState) :
    adjust_spines keep sb ow (adjust_spines keep sb ow ax) =
      adjust_spines keep sb ow ax := by
  by_cases hL : "left" ∈ keep <;> by_cases hB : "bottom" ∈ keep <;>
    by_cases hT : "top" ∈ keep <;> by_cases hR : "right" ∈ keep <;>
      cases ow <;>
        simp [adjust_spines, adjustSpine, hL, hB, hT, hR]

end Niceplots
